import Mathlib

/-!
Shallow embedding of the Artemis Eco Forum client core
(src/contexts/AppContext.tsx and the HomePage filter logic), covering the
Collection Store change handlers, the Identity Resolver's sign-in merge,
the Mutation Gateway operations, the Derived View Engine
(search / flag filter / stable sort), and the Preference Manager.

Remote backend tables (`posts`, `comments`) are modelled as lists held in
an `AppState` together with the in-memory local mirrors; each operation's
success path is embedded as a pure state transformer, with the
authentication guard modelled as `Except`.
-/

namespace Artemis

inductive PostFlag where
  | Question | Opinion | Tip | News | Project | Discussion
deriving DecidableEq, Repr

structure Post where
  id : String
  title : String
  content : String
  image_url : Option String := none
  created_at : Nat
  upvotes : Nat
  user_id : String
  user_name : Option String := none
  flag : Option PostFlag := none
  repost_of : Option String := none
deriving DecidableEq, Repr

structure Comment where
  id : String
  post_id : String
  content : String
  created_at : Nat
  user_id : String
  user_name : Option String := none
deriving DecidableEq, Repr

inductive ColorScheme where
  | light | dark | system
deriving DecidableEq, Repr

structure UserPreferences where
  showImagesInFeed : Bool
  showContentInFeed : Bool
  colorScheme : ColorScheme
deriving DecidableEq, Repr

structure User where
  id : String
  full_name : Option String := none
  preferences : UserPreferences
  email : Option String := none
deriving DecidableEq, Repr

/-- Default preferences used when a profile is first created
(AppContext.tsx lines 106-110 and 135-139). -/
def defaultPreferences : UserPreferences :=
  { showImagesInFeed := true, showContentInFeed := false, colorScheme := .system }

/-! ## Collection Store change handlers (AppContext.tsx lines 278-331) -/

inductive ChangeType where
  | insert | update | delete
deriving DecidableEq, Repr

/-- The `postgres_changes` handler for the `posts` table: INSERT prepends the
payload, UPDATE replaces the entry whose id matches, DELETE removes the entry
whose id matches (AppContext.tsx lines 284-298). -/
def postsOnChange (prev : List Post) (ev : ChangeType) (payload : Post) : List Post :=
  match ev with
  | .insert => payload :: prev
  | .update => prev.map (fun post => if post.id == payload.id then payload else post)
  | .delete => prev.filter (fun post => post.id != payload.id)

/-- The `postgres_changes` handler for the `comments` table: INSERT appends,
UPDATE replaces by id, DELETE removes by id (AppContext.tsx lines 307-323). -/
def commentsOnChange (prev : List Comment) (ev : ChangeType) (payload : Comment) :
    List Comment :=
  match ev with
  | .insert => prev ++ [payload]
  | .update => prev.map (fun c => if c.id == payload.id then payload else c)
  | .delete => prev.filter (fun c => c.id != payload.id)

/-! ## Identity Resolver: random usernames and the sign-in merge
(AppContext.tsx lines 47-76 and 159-191) -/

def adjectives : List String :=
  ["Green", "Forest", "Earth", "River", "Ocean",
   "Wild", "Nature", "Eco", "Solar", "Wind"]

def nouns : List String :=
  ["Guardian", "Defender", "Warrior", "Friend", "Hero",
   "Spirit", "Advocate", "Pioneer", "Keeper", "Voice"]

/-- `generateRandomUsername`: picks one adjective and one noun by index
(the indices stand for the two `Math.random` draws) and concatenates them
(AppContext.tsx lines 47-76). -/
def generateRandomUsername (ai ni : Nat) : String :=
  (adjectives.getD ai "") ++ (nouns.getD ni "")

/-- The payload of a `SIGNED_IN` auth event (AppContext.tsx lines 159-163). -/
structure SignInData where
  id : String
  email : Option String := none
  full_name : Option String := none
deriving DecidableEq, Repr

/-- JavaScript `a || b` on an optional string: an absent or empty string is
falsy and falls through to `b`. -/
def jsOrStr (a : Option String) (b : String) : String :=
  match a with
  | some s => if s = "" then b else s
  | none => b

/-- `userData.full_name || userData.email?.split("@")[0] || "EcoUser"`
(AppContext.tsx lines 173-174). -/
def displayNameFor (ud : SignInData) : String :=
  jsOrStr ud.full_name (jsOrStr (ud.email.map (fun e => (e.splitOn "@").headD "")) "EcoUser")

/-- `...(userData.email ? { email: userData.email } : {})`: the email field is
merged only when present and non-empty (AppContext.tsx line 176). -/
def emailUpdateFor (ud : SignInData) (prev : Option String) : Option String :=
  match ud.email with
  | some e => if e = "" then prev else some e
  | none => prev

/-- `handleAccountCreation` (AppContext.tsx lines 159-191): the `wasAnonymous`
test compares the current display name against a FRESH call to
`generateRandomUsername()`; `freshRoll` is that freshly generated name. Only
when the test passes are the display name and email merged into the user
record (the spread `{...prev, ...updatedUser}` preserves id and preferences). -/
def handleAccountCreation (user : User) (ud : SignInData) (freshRoll : String) : User :=
  let wasAnonymous := user.email.isNone && (user.full_name == some freshRoll)
  if wasAnonymous then
    { user with
      full_name := some (displayNameFor ud),
      email := emailUpdateFor ud user.email }
  else
    user

/-! ## Application state: backend tables plus the in-memory mirrors -/

/-- `backendPosts` / `backendComments` model the remote `posts` and `comments`
tables; `localPosts` / `localComments` are the in-memory mirrors held in React
state, kept in sync by `postsOnChange` / `commentsOnChange`. -/
structure AppState where
  backendPosts : List Post
  backendComments : List Comment
  localPosts : List Post
  localComments : List Comment
deriving DecidableEq, Repr

/-- `select("*").eq("id", post_id).single()`: the row of the `posts` table
whose id matches, if any. -/
def findPost (posts : List Post) (pid : String) : Option Post :=
  posts.find? (fun p => p.id == pid)

def findComment (comments : List Comment) (cid : String) : Option Comment :=
  comments.find? (fun c => c.id == cid)

/-- Errors of §7 of the design; the Mutation Gateway throws
`authenticationRequired` when there is no active user. -/
inductive AppError where
  | authenticationRequired | accessDenied | notFound | remoteFailure | validationFailure
deriving DecidableEq, Repr

/-- The combined guard `if (!postData || postData.user_id !== user.id)` used by
updatePost, deletePost and deleteComment (AppContext.tsx lines 403, 456, 578):
a missing row and an ownership mismatch take the same access-denied branch. -/
def accessCheckFails (owner : Option String) (uid : String) : Bool :=
  match owner with
  | none => true
  | some o => o != uid

/-! ## Mutation Gateway (AppContext.tsx lines 333-610) -/

/-- `createPost` success path (AppContext.tsx lines 333-381): builds the new
row owned by the active user with `upvotes: 0` and the given repost reference,
inserts it into the `posts` table, and returns the created row. `newId` stands
for the server-assigned id and `now` for `new Date()`. -/
def createPostCore (u : User) (st : AppState) (newId title content : String)
    (image_url : Option String) (flag : Option PostFlag) (repost_of : Option String)
    (now : Nat) : Post × AppState :=
  let newPost : Post :=
    { id := newId, title := title, content := content, image_url := image_url,
      created_at := now, upvotes := 0, user_id := u.id, user_name := u.full_name,
      flag := flag, repost_of := repost_of }
  (newPost, { st with backendPosts := st.backendPosts ++ [newPost] })

/-- `createPost` with the `if (!user) throw` guard (AppContext.tsx line 342). -/
def createPost (user : Option User) (st : AppState) (newId title content : String)
    (image_url : Option String) (flag : Option PostFlag) (repost_of : Option String)
    (now : Nat) : Except AppError (Post × AppState) :=
  match user with
  | none => .error .authenticationRequired
  | some u => .ok (createPostCore u st newId title content image_url flag repost_of now)

/-- `updatePost` (AppContext.tsx lines 383-440): looks the post up by id, takes
the access-denied branch (returning false, state untouched) when the row is
missing or owned by someone else, and otherwise persists the new title,
content, image reference and flag. -/
def updatePostCore (u : User) (st : AppState) (post_id title content : String)
    (image_url : Option String) (flag : Option PostFlag) : Bool × AppState :=
  let postData := findPost st.backendPosts post_id
  if accessCheckFails (postData.map (fun p => p.user_id)) u.id then
    (false, st)
  else
    (true, { st with
      backendPosts := st.backendPosts.map (fun p =>
        if p.id == post_id then
          { p with title := title, content := content, image_url := image_url,
                   flag := flag }
        else p) })

def updatePost (user : Option User) (st : AppState) (post_id title content : String)
    (image_url : Option String) (flag : Option PostFlag) :
    Except AppError (Bool × AppState) :=
  match user with
  | none => .error .authenticationRequired
  | some u => .ok (updatePostCore u st post_id title content image_url flag)

/-- `deletePost` (AppContext.tsx lines 442-489): same access-denied branch;
on success deletes all comments whose `post_id` matches, then the post. -/
def deletePostCore (u : User) (st : AppState) (post_id : String) : Bool × AppState :=
  let postData := findPost st.backendPosts post_id
  if accessCheckFails (postData.map (fun p => p.user_id)) u.id then
    (false, st)
  else
    (true, { st with
      backendComments := st.backendComments.filter (fun c => c.post_id != post_id),
      backendPosts := st.backendPosts.filter (fun p => p.id != post_id) })

def deletePost (user : Option User) (st : AppState) (post_id : String) :
    Except AppError (Bool × AppState) :=
  match user with
  | none => .error .authenticationRequired
  | some u => .ok (deletePostCore u st post_id)

/-- `upvotePost` (AppContext.tsx lines 491-524): reads the current row; if it
is missing the call returns with the state untouched ("Post not found");
otherwise it persists `data.upvotes + 1` to the table and increments the
matching entry of the local mirror for immediate feedback. -/
def upvotePostCore (st : AppState) (post_id : String) : AppState :=
  match findPost st.backendPosts post_id with
  | none => st
  | some data =>
    { st with
      backendPosts := st.backendPosts.map (fun p =>
        if p.id == post_id then { p with upvotes := data.upvotes + 1 } else p),
      localPosts := st.localPosts.map (fun p =>
        if p.id == post_id then { p with upvotes := p.upvotes + 1 } else p) }

def upvotePost (user : Option User) (st : AppState) (post_id : String) :
    Except AppError AppState :=
  match user with
  | none => .error .authenticationRequired
  | some _ => .ok (upvotePostCore st post_id)

/-- `deleteComment` (AppContext.tsx lines 564-610): same access-denied branch
as updatePost/deletePost; on success deletes the comment row. -/
def deleteCommentCore (u : User) (st : AppState) (commentId : String) : Bool × AppState :=
  let commentData := findComment st.backendComments commentId
  if accessCheckFails (commentData.map (fun c => c.user_id)) u.id then
    (false, st)
  else
    (true, { st with
      backendComments := st.backendComments.filter (fun c => c.id != commentId) })

def deleteComment (user : Option User) (st : AppState) (commentId : String) :
    Except AppError (Bool × AppState) :=
  match user with
  | none => .error .authenticationRequired
  | some u => .ok (deleteCommentCore u st commentId)

/-! ## Derived View Engine (HomePage applyFilters and AppContext searchPosts) -/

def lowerChars (s : String) : List Char :=
  s.toList.map Char.toLower

/-- JavaScript `s.trim()`: the character list of `s` with leading and trailing
whitespace removed. -/
def jsTrim (s : String) : List Char :=
  ((s.toList.dropWhile Char.isWhitespace).reverse.dropWhile Char.isWhitespace).reverse

/-- The `ilike.%query%` predicate over one column: case-insensitive substring
match. -/
def ilikeContains (query col : String) : Bool :=
  decide (lowerChars query <:+: lowerChars col)

/-- The `or(title.ilike.%query%,content.ilike.%query%)` search predicate
(AppContext.tsx line 699). -/
def matchesQuery (query : String) (p : Post) : Bool :=
  ilikeContains query p.title || ilikeContains query p.content

/-- `searchPosts` (AppContext.tsx lines 690-711): a blank (whitespace-only)
query returns the local mirror unchanged; otherwise the backend filters the
`posts` table by the ilike-OR predicate. -/
def searchPosts (st : AppState) (query : String) : List Post :=
  if jsTrim query = [] then st.localPosts
  else st.backendPosts.filter (matchesQuery query)

inductive SortMode where
  | time | upvotes
deriving DecidableEq, Repr

/-- The sort key of the HomePage comparator (part_000 lines 72-82):
`new Date(created_at).getTime()` for "time", `upvotes || 0` for "upvotes",
compared descending. -/
def sortKey (mode : SortMode) (p : Post) : Nat :=
  match mode with
  | .time => p.created_at
  | .upvotes => p.upvotes

/-- Insertion step of a stable descending sort by a numeric key: `x` moves
past exactly the elements whose key is strictly larger, so elements with equal
keys keep their original relative order — the behaviour ECMAScript guarantees
for `Array.prototype.sort` with the comparator `(b_key - a_key)`. -/
def insertDescBy (key : Post → Nat) (x : Post) : List Post → List Post
  | [] => [x]
  | y :: ys => if key x < key y then y :: insertDescBy key x ys else x :: y :: ys

/-- Stable descending sort by a numeric key, embedding the stable
`Array.prototype.sort` call of part_000 lines 72-82. -/
def stableSortDescBy (key : Post → Nat) : List Post → List Post
  | [] => []
  | x :: xs => insertDescBy key x (stableSortDescBy key xs)

/-- `applyFilters` (part_000 lines 58-92): start from the local mirror,
replace it by the remote search result when the query is non-empty, apply the
flag filter as an exact-match post-filter when a flag is selected, then sort
by the selected mode. -/
def applyFilters (st : AppState) (query : String) (selectedFlag : Option PostFlag)
    (sortBy : SortMode) : List Post :=
  let result := if query.length > 0 then searchPosts st query else st.localPosts
  let result := match selectedFlag with
    | some f => result.filter (fun p => p.flag == some f)
    | none => result
  stableSortDescBy (sortKey sortBy) result

/-! ## Preference Manager (AppContext.tsx lines 640-688) -/

/-- A `Partial<UserPreferences>` argument: each field optionally present. -/
structure PrefUpdate where
  showImagesInFeed : Option Bool := none
  showContentInFeed : Option Bool := none
  colorScheme : Option ColorScheme := none
deriving DecidableEq, Repr

/-- The spread `{ ...user.preferences, ...preferences }`
(AppContext.tsx lines 647-650). -/
def mergePreferences (prefs : UserPreferences) (upd : PrefUpdate) : UserPreferences :=
  { showImagesInFeed := upd.showImagesInFeed.getD prefs.showImagesInFeed,
    showContentInFeed := upd.showContentInFeed.getD prefs.showContentInFeed,
    colorScheme := upd.colorScheme.getD prefs.colorScheme }

/-- `setUserPreferences` success path (AppContext.tsx lines 640-673): persists
the merged preferences and updates the in-memory user. -/
def setUserPreferences (u : User) (upd : PrefUpdate) : User :=
  { u with preferences := mergePreferences u.preferences upd }

/-- `toggleColorMode` (AppContext.tsx lines 675-688): light → dark,
dark → system, otherwise → light, applied through `setUserPreferences`. -/
def toggleColorMode (u : User) : User :=
  let currentMode := u.preferences.colorScheme
  let newMode : ColorScheme :=
    if currentMode = .light then .dark
    else if currentMode = .dark then .system
    else .light
  setUserPreferences u { colorScheme := some newMode }

/-! ## Interleavings of upvotes and push notifications (for the upvote
monotonicity property) -/

/-- One event of the session: either a successful `upvotePost` call or a
push notification for the `posts` table handled by `postsOnChange`. -/
inductive Step where
  | upvote (post_id : String)
  | notify (ev : ChangeType) (payload : Post)
deriving DecidableEq, Repr

def runStep (st : AppState) : Step → AppState
  | .upvote pid => upvotePostCore st pid
  | .notify ev payload => { st with localPosts := postsOnChange st.localPosts ev payload }

def runSteps (st : AppState) : List Step → AppState
  | [] => st
  | s :: rest => runSteps (runStep st s) rest

/-- A step permitted by the upvote-monotonicity claim: an upvote of the post
under consideration, or a change notification for a different post. -/
def validStep (pid : String) : Step → Bool
  | .upvote q => q == pid
  | .notify _ payload => payload.id != pid

def countUpvoteSteps (steps : List Step) : Nat :=
  steps.countP (fun s => match s with | .upvote _ => true | _ => false)

/-- The upvote count of the post with the given id in the in-memory mirror. -/
def localUpvoteCount (st : AppState) (pid : String) : Option Nat :=
  (findPost st.localPosts pid).map (fun p => p.upvotes)

/-- Whether the `posts` table holds a row with the given id (a successful
upvote requires it). -/
def backendHas (st : AppState) (pid : String) : Bool :=
  (findPost st.backendPosts pid).isSome

/-! ## Concrete fixtures used to exercise the definitions -/

def alice : User :=
  { id := "u1", full_name := some "Alice", preferences := defaultPreferences,
    email := some "alice@example.com" }

def anonUser : User :=
  { id := "anon-1", full_name := some "GreenGuardian", preferences := defaultPreferences,
    email := none }

def signInAlex : SignInData :=
  { id := "auth-1", email := some "a@b.com", full_name := some "Alex" }

def postA : Post :=
  { id := "p1", title := "Eco tips", content := "Save water", created_at := 100,
    upvotes := 5, user_id := "u1", flag := some .Tip }

def postB : Post :=
  { id := "p2", title := "News today", content := "Big eco news", created_at := 50,
    upvotes := 5, user_id := "u2", flag := some .News }

def postX : Post :=
  { id := "p9", title := "Other", content := "Unrelated", created_at := 200,
    upvotes := 3, user_id := "u3" }

def commentA : Comment :=
  { id := "c1", post_id := "p1", content := "Nice", created_at := 120, user_id := "u2" }

def commentB : Comment :=
  { id := "c2", post_id := "p1", content := "Agreed", created_at := 130, user_id := "u1" }

def commentC : Comment :=
  { id := "c3", post_id := "p2", content := "Wow", created_at := 140, user_id := "u2" }

def st0 : AppState :=
  { backendPosts := [postA, postB],
    backendComments := [commentA, commentB, commentC],
    localPosts := [postA, postB],
    localComments := [commentA, commentB, commentC] }

/-! ## Theorems -/

/-- C1: the claim states that an insert event whose payload id already occurs
in the collection is treated as an update and creates no duplicate. The
handler in fact prepends the payload unconditionally: starting from a
collection already holding the post with id "p1", delivering an insert event
for that same id leaves two entries with id "p1" in the collection. -/
theorem c1_insert_creates_duplicate :
    (postsOnChange [postA] .insert postA).countP (fun p => p.id == "p1") = 2 ∧
    postsOnChange [postA] .insert postA = [postA, postA] := by
  constructor
  · decide
  · rfl

/-- C2: the claim states that every anonymous identity (display name produced
by the adjective+noun generator, no email) is merged on sign-in. The code's
`wasAnonymous` test compares the stored name against a freshly re-rolled
random name, so whenever the fresh roll differs — here "ForestDefender"
against the stored generator output "GreenGuardian" — the sign-in of
"Alex" / "a@b.com" performs no merge at all: the record keeps the name
"GreenGuardian" and no email. -/
theorem c2_merge_skipped_on_fresh_roll :
    generateRandomUsername 0 0 = "GreenGuardian" ∧
    anonUser.full_name = some (generateRandomUsername 0 0) ∧
    generateRandomUsername 1 1 = "ForestDefender" ∧
    handleAccountCreation anonUser signInAlex (generateRandomUsername 1 1) = anonUser ∧
    (handleAccountCreation anonUser signInAlex (generateRandomUsername 1 1)).full_name ≠
      some "Alex" := by
  refine ⟨by decide, by decide, by decide, ?_, ?_⟩
  · decide
  · decide

/-- C9: toggleColorMode advances the color scheme light → dark → system →
light, and three successful toggles restore the original scheme. -/
theorem c9_toggle_color_scheme_cycles (u : User) :
    (toggleColorMode u).preferences.colorScheme =
      (match u.preferences.colorScheme with
       | .light => .dark
       | .dark => .system
       | .system => .light) ∧
    (toggleColorMode (toggleColorMode (toggleColorMode u))).preferences.colorScheme =
      u.preferences.colorScheme := by
  rcases u with ⟨uid, fn, ⟨si, sc, cs⟩, em⟩
  cases cs <;>
    simp [toggleColorMode, setUserPreferences, mergePreferences]

/-- C8: createPost with an active identity and a non-empty title returns the
created post, which carries the server-assigned id, is owned by the active
identity, has zero upvotes and exactly the given repost reference (no
existence check), and is persisted in the posts table; with no active
identity it fails with AuthenticationRequired. -/
theorem c8_create_post_spec (u : User) (st : AppState) (newId title content : String)
    (image_url : Option String) (flag : Option PostFlag) (repost_of : Option String)
    (now : Nat) (ht : jsTrim title ≠ []) :
    createPost (some u) st newId title content image_url flag repost_of now =
      .ok (createPostCore u st newId title content image_url flag repost_of now) ∧
    (createPostCore u st newId title content image_url flag repost_of now).1.id = newId ∧
    (createPostCore u st newId title content image_url flag repost_of now).1.user_id = u.id ∧
    (createPostCore u st newId title content image_url flag repost_of now).1.upvotes = 0 ∧
    (createPostCore u st newId title content image_url flag repost_of now).1.repost_of =
      repost_of ∧
    (createPostCore u st newId title content image_url flag repost_of now).1 ∈
      (createPostCore u st newId title content image_url flag repost_of now).2.backendPosts ∧
    createPost none st newId title content image_url flag repost_of now =
      .error .authenticationRequired := by
  refine ⟨rfl, rfl, rfl, rfl, rfl, ?_, rfl⟩
  simp [createPostCore]

/-- C8 witness: instantiation at a concrete call. -/
theorem c8_create_post_spec_witness :
    jsTrim "Hello" ≠ [] ∧
    (createPostCore alice st0 "p7" "Hello" "body" none (some .News) (some "p1") 300).1.user_id =
      alice.id := by
  refine ⟨by decide, ?_⟩
  exact (c8_create_post_spec alice st0 "p7" "Hello" "body" none (some .News) (some "p1") 300
    (by decide)).2.2.1

/-- C4: every mutating operation enforces ownership: invoked by `u` on a post
or comment stored with a different owner, updatePost, deletePost and
deleteComment return false through the access-denied branch and leave the
whole state (both collections) unchanged. -/
theorem c4_ownership_enforced (u : User) (st : AppState) :
    (∀ pid po title content image_url flag,
        findPost st.backendPosts pid = some po → po.user_id ≠ u.id →
        updatePost (some u) st pid title content image_url flag = .ok (false, st) ∧
        deletePost (some u) st pid = .ok (false, st)) ∧
    (∀ cid co,
        findComment st.backendComments cid = some co → co.user_id ≠ u.id →
        deleteComment (some u) st cid = .ok (false, st)) := by
  constructor
  · intro pid po title content image_url flag hfind hne
    have hc : accessCheckFails ((findPost st.backendPosts pid).map (fun p => p.user_id))
        u.id = true := by
      rw [hfind]
      simpa [accessCheckFails, bne_iff_ne] using hne
    exact ⟨by simp [updatePost, updatePostCore, hc], by simp [deletePost, deletePostCore, hc]⟩
  · intro cid co hfind hne
    have hc : accessCheckFails ((findComment st.backendComments cid).map (fun c => c.user_id))
        u.id = true := by
      rw [hfind]
      simpa [accessCheckFails, bne_iff_ne] using hne
    simp [deleteComment, deleteCommentCore, hc]

/-- C4 witness: alice (id "u1") cannot update or delete postB (owned by "u2")
nor delete commentA (owned by "u2"); all three calls return false and leave
the state unchanged. -/
theorem c4_ownership_enforced_witness :
    updatePost (some alice) st0 "p2" "t" "c" none none = .ok (false, st0) ∧
    deletePost (some alice) st0 "p2" = .ok (false, st0) ∧
    deleteComment (some alice) st0 "c1" = .ok (false, st0) := by
  refine ⟨?_, ?_, ?_⟩
  · exact ((c4_ownership_enforced alice st0).1 "p2" postB "t" "c" none none
      (by decide) (by decide)).1
  · exact ((c4_ownership_enforced alice st0).1 "p2" postB "t" "c" none none
      (by decide) (by decide)).2
  · exact (c4_ownership_enforced alice st0).2 "c1" commentA (by decide) (by decide)

/-- C10: an id that refers to no stored post or comment makes updatePost,
deletePost and deleteComment return false through the very same access-denied
branch (`accessCheckFails none _ = true`, the combined
`!postData || owner mismatch` guard), leaving both collections unchanged;
no distinct NotFound outcome exists on these operations. -/
theorem c10_missing_entity_denied (u : User) (st : AppState) :
    accessCheckFails none u.id = true ∧
    (∀ pid title content image_url flag,
        findPost st.backendPosts pid = none →
        updatePost (some u) st pid title content image_url flag = .ok (false, st) ∧
        deletePost (some u) st pid = .ok (false, st)) ∧
    (∀ cid,
        findComment st.backendComments cid = none →
        deleteComment (some u) st cid = .ok (false, st)) := by
  refine ⟨rfl, ?_, ?_⟩
  · intro pid title content image_url flag hfind
    have hc : accessCheckFails ((findPost st.backendPosts pid).map (fun p => p.user_id))
        u.id = true := by
      rw [hfind]; rfl
    exact ⟨by simp [updatePost, updatePostCore, hc], by simp [deletePost, deletePostCore, hc]⟩
  · intro cid hfind
    have hc : accessCheckFails ((findComment st.backendComments cid).map (fun c => c.user_id))
        u.id = true := by
      rw [hfind]; rfl
    simp [deleteComment, deleteCommentCore, hc]

/-- C10 witness: the id "zzz" matches nothing in st0; all three operations
return false and leave the state unchanged. -/
theorem c10_missing_entity_denied_witness :
    updatePost (some alice) st0 "zzz" "t" "c" none none = .ok (false, st0) ∧
    deletePost (some alice) st0 "zzz" = .ok (false, st0) ∧
    deleteComment (some alice) st0 "zzz" = .ok (false, st0) := by
  refine ⟨?_, ?_, ?_⟩
  · exact ((c10_missing_entity_denied alice st0).2.1 "zzz" "t" "c" none none (by decide)).1
  · exact ((c10_missing_entity_denied alice st0).2.1 "zzz" "t" "c" none none (by decide)).2
  · exact (c10_missing_entity_denied alice st0).2.2 "zzz" (by decide)

/-- C5: a successful deletePost by the owner succeeds (returns true), leaves
no comment whose parent post id equals the deleted id, and removes the post
from the post collection. -/
theorem c5_delete_post_cascades (u : User) (st : AppState) (pid : String) (po : Post)
    (hfind : findPost st.backendPosts pid = some po) (hown : po.user_id = u.id) :
    (deletePostCore u st pid).1 = true ∧
    (deletePostCore u st pid).2.backendComments.filter (fun c => c.post_id == pid) = [] ∧
    findPost (deletePostCore u st pid).2.backendPosts pid = none := by
  have hc : accessCheckFails ((findPost st.backendPosts pid).map (fun p => p.user_id))
      u.id = false := by
    rw [hfind]
    simp [accessCheckFails, hown]
  have hd : deletePostCore u st pid =
      (true, { st with
        backendComments := st.backendComments.filter (fun c => c.post_id != pid),
        backendPosts := st.backendPosts.filter (fun p => p.id != pid) }) := by
    simp [deletePostCore, hc]
  refine ⟨by rw [hd], ?_, ?_⟩
  · rw [hd]
    rw [List.filter_eq_nil_iff]
    intro c hmem
    have h2 := (List.mem_filter.mp hmem).2
    simp only [bne_iff_ne, ne_eq] at h2
    simp [h2]
  · rw [hd]
    simp only [findPost]
    rw [List.find?_eq_none]
    intro p hmem
    have h2 := (List.mem_filter.mp hmem).2
    simp only [bne_iff_ne, ne_eq] at h2
    simp [h2]

/-- C5 witness: alice deletes her post "p1", which has two comments; the call
succeeds, afterwards no comment references "p1" and "p1" is gone. -/
theorem c5_delete_post_cascades_witness :
    (deletePostCore alice st0 "p1").1 = true ∧
    (deletePostCore alice st0 "p1").2.backendComments.filter
      (fun c => c.post_id == "p1") = [] ∧
    findPost (deletePostCore alice st0 "p1").2.backendPosts "p1" = none := by
  exact c5_delete_post_cascades alice st0 "p1" postA (by decide) (by decide)

/-- Helper: `find?` by id commutes with mapping an id-preserving function. -/
theorem find?_map_id_pres (pid : String) (f : Post → Post)
    (hf : ∀ p, (f p).id = p.id) (l : List Post) :
    (l.map f).find? (fun p => p.id == pid) = (l.find? (fun p => p.id == pid)).map f := by
  induction l with
  | nil => rfl
  | cons p l ih =>
    rw [List.map_cons]
    cases h : (p.id == pid) with
    | true =>
      have hfp : ((f p).id == pid) = true := by rw [hf]; exact h
      simp only [List.find?_cons, hfp, h]
      rfl
    | false =>
      have hfp : ((f p).id == pid) = false := by rw [hf]; exact h
      simp only [List.find?_cons, hfp, h]
      exact ih

/-- Helper: removing the entries with a different id does not change the
`find?` result for this id. -/
theorem find?_filter_other_id (pid qid : String) (hne : qid ≠ pid) (l : List Post) :
    (l.filter (fun p => p.id != qid)).find? (fun p => p.id == pid) =
      l.find? (fun p => p.id == pid) := by
  induction l with
  | nil => rfl
  | cons p l ih =>
    cases h : (p.id == pid) with
    | true =>
      have hpe : p.id = pid := by simpa using h
      have hq : (p.id != qid) = true := by
        simp only [bne_iff_ne, ne_eq, hpe]
        exact fun hcon => hne hcon.symm
      rw [List.filter_cons_of_pos (p := fun x : Post => x.id != qid) hq]
      simp only [List.find?_cons, h]
    | false =>
      cases hq : (p.id != qid) with
      | true =>
        rw [List.filter_cons_of_pos (p := fun x : Post => x.id != qid) hq]
        simp only [List.find?_cons, h]
        exact ih
      | false =>
        rw [List.filter_cons_of_neg (p := fun x : Post => x.id != qid) (by simp [hq])]
        simp only [List.find?_cons, h]
        exact ih

/-- Helper: one successful upvote call increments the mirror's count for that
post and keeps the post present in the table. -/
theorem upvote_step_effect (st : AppState) (pid : String) (c : Nat)
    (hb : backendHas st pid = true) (hc : localUpvoteCount st pid = some c) :
    localUpvoteCount (upvotePostCore st pid) pid = some (c + 1) ∧
    backendHas (upvotePostCore st pid) pid = true := by
  obtain ⟨data, hdata⟩ := Option.isSome_iff_exists.mp hb
  have hcore : upvotePostCore st pid =
      { st with
        backendPosts := st.backendPosts.map (fun p =>
          if p.id == pid then { p with upvotes := data.upvotes + 1 } else p),
        localPosts := st.localPosts.map (fun p =>
          if p.id == pid then { p with upvotes := p.upvotes + 1 } else p) } := by
    unfold upvotePostCore
    rw [hdata]
  constructor
  · rw [hcore]
    unfold localUpvoteCount findPost
    rw [find?_map_id_pres pid _
      (fun p => by by_cases hp : (p.id == pid) = true <;> simp [hp])]
    cases hfind : st.localPosts.find? (fun p => p.id == pid) with
    | none =>
      unfold localUpvoteCount findPost at hc
      rw [hfind] at hc
      exact absurd hc (by simp)
    | some p =>
      have hpred := List.find?_some hfind
      have hpe : p.id = pid := by simpa using hpred
      unfold localUpvoteCount findPost at hc
      rw [hfind] at hc
      have hup : p.upvotes = c := by simpa using hc
      simp [hpe, hup]
  · rw [hcore]
    unfold backendHas findPost
    rw [find?_map_id_pres pid _
      (fun p => by by_cases hp : (p.id == pid) = true <;> simp [hp])]
    have hdata' : List.find? (fun p => p.id == pid) st.backendPosts = some data := hdata
    rw [hdata']
    rfl

/-- Helper: a push notification for a different post id changes neither the
mirror's count for this post nor its presence in the table. -/
theorem notify_step_effect (st : AppState) (pid : String) (ev : ChangeType) (payload : Post)
    (hne : payload.id ≠ pid) :
    localUpvoteCount (runStep st (.notify ev payload)) pid = localUpvoteCount st pid ∧
    backendHas (runStep st (.notify ev payload)) pid = backendHas st pid := by
  refine ⟨?_, rfl⟩
  show localUpvoteCount { st with localPosts := postsOnChange st.localPosts ev payload } pid = _
  unfold localUpvoteCount findPost
  cases ev with
  | insert =>
    show (((payload :: st.localPosts).find? (fun p => p.id == pid)).map fun p => p.upvotes) = _
    rw [List.find?_cons_of_neg _ (by simp [hne])]
  | update =>
    show (((st.localPosts.map fun post => if post.id == payload.id then payload else post).find?
      (fun p => p.id == pid)).map fun p => p.upvotes) = _
    rw [find?_map_id_pres pid _
      (fun p => by
        cases hp : (p.id == payload.id) with
        | true =>
          have hpe : p.id = payload.id := by simpa using hp
          simp [hp, hpe]
        | false => simp [hp])]
    cases hfind : st.localPosts.find? (fun p => p.id == pid) with
    | none => rfl
    | some p =>
      have hpred : p.id = pid := by simpa using List.find?_some hfind
      have hnp : ¬(p.id = payload.id) := by
        rw [hpred]; exact fun hcon => hne hcon.symm
      simp [hnp]
  | delete =>
    show (((st.localPosts.filter fun post => post.id != payload.id).find?
      (fun p => p.id == pid)).map fun p => p.upvotes) = _
    rw [find?_filter_other_id pid payload.id hne]

/-- C3: upvoting is monotonic and exact: starting from a state whose table
still holds the post and whose mirror records count `c`, running any
interleaving of successful upvote calls on that post with change
notifications for other posts leaves the mirror's count at `c` plus the
number of upvote calls — in particular no step of the sequence ever lowers
the count. -/
theorem c3_upvote_monotonic (st : AppState) (pid : String) (c : Nat) (steps : List Step)
    (hv : steps.all (validStep pid) = true)
    (hb : backendHas st pid = true)
    (hc : localUpvoteCount st pid = some c) :
    localUpvoteCount (runSteps st steps) pid = some (c + countUpvoteSteps steps) := by
  induction steps generalizing st c with
  | nil => simpa [runSteps, countUpvoteSteps] using hc
  | cons s rest ih =>
    rw [List.all_cons, Bool.and_eq_true] at hv
    cases s with
    | upvote q =>
      have hq : q = pid := by simpa [validStep] using hv.1
      subst hq
      have he := upvote_step_effect st q c hb hc
      have hrec := ih (runStep st (.upvote q)) (c + 1) hv.2 he.2 he.1
      show localUpvoteCount (runSteps (runStep st (.upvote q)) rest) q = _
      rw [hrec]
      have : countUpvoteSteps (Step.upvote q :: rest) = countUpvoteSteps rest + 1 := by
        simp [countUpvoteSteps, List.countP_cons]
      rw [this]
      congr 1
      omega
    | notify ev payload =>
      have hne : payload.id ≠ pid := by simpa [validStep, bne_iff_ne] using hv.1
      have he := notify_step_effect st pid ev payload hne
      have hrec := ih (runStep st (.notify ev payload)) c hv.2 (he.2.trans hb)
        (he.1.trans hc)
      show localUpvoteCount (runSteps (runStep st (.notify ev payload)) rest) pid = _
      rw [hrec]
      have : countUpvoteSteps (Step.notify ev payload :: rest) = countUpvoteSteps rest := by
        simp [countUpvoteSteps, List.countP_cons]
      rw [this]

/-- C3 witness: post "p1" starts at 5 upvotes; two upvote calls interleaved
with an unrelated insert notification yield exactly 7. -/
theorem c3_upvote_monotonic_witness :
    ([Step.upvote "p1", Step.notify .insert postX, Step.upvote "p1"].all
      (validStep "p1") = true) ∧
    backendHas st0 "p1" = true ∧
    localUpvoteCount st0 "p1" = some 5 ∧
    localUpvoteCount
      (runSteps st0 [Step.upvote "p1", Step.notify .insert postX, Step.upvote "p1"]) "p1" =
      some (5 + countUpvoteSteps
        [Step.upvote "p1", Step.notify .insert postX, Step.upvote "p1"]) := by
  refine ⟨by decide, by decide, by decide, ?_⟩
  exact c3_upvote_monotonic st0 "p1" 5
    [Step.upvote "p1", Step.notify .insert postX, Step.upvote "p1"]
    (by decide) (by decide) (by decide)

/-- Helper: membership through the insertion step of the stable sort. -/
theorem mem_insertDescBy (key : Post → Nat) (x a : Post) (l : List Post) :
    a ∈ insertDescBy key x l ↔ a = x ∨ a ∈ l := by
  induction l with
  | nil => simp [insertDescBy]
  | cons y ys ih =>
    by_cases h : key x < key y
    · simp only [insertDescBy, if_pos h, List.mem_cons, ih]
      tauto
    · simp only [insertDescBy, if_neg h, List.mem_cons]

/-- Helper: membership through the stable sort. -/
theorem mem_stableSortDescBy (key : Post → Nat) (a : Post) (l : List Post) :
    a ∈ stableSortDescBy key l ↔ a ∈ l := by
  induction l with
  | nil => simp [stableSortDescBy]
  | cons x xs ih =>
    simp only [stableSortDescBy, mem_insertDescBy, ih, List.mem_cons]

/-- Helper: inserting into a list sorted by non-increasing key keeps it
sorted. -/
theorem pairwise_insertDescBy (key : Post → Nat) (x : Post) (l : List Post)
    (h : l.Pairwise (fun a b => key b ≤ key a)) :
    (insertDescBy key x l).Pairwise (fun a b => key b ≤ key a) := by
  induction l with
  | nil => simp [insertDescBy]
  | cons y ys ih =>
    rw [List.pairwise_cons] at h
    by_cases hlt : key x < key y
    · simp only [insertDescBy, if_pos hlt]
      rw [List.pairwise_cons]
      constructor
      · intro b hb
        rcases (mem_insertDescBy key x b ys).mp hb with rfl | hbys
        · exact Nat.le_of_lt hlt
        · exact h.1 b hbys
      · exact ih h.2
    · simp only [insertDescBy, if_neg hlt]
      rw [List.pairwise_cons]
      constructor
      · intro b hb
        rcases List.mem_cons.mp hb with rfl | hbys
        · exact Nat.le_of_not_lt hlt
        · exact Nat.le_trans (h.1 b hbys) (Nat.le_of_not_lt hlt)
      · exact List.pairwise_cons.mpr h

/-- Helper: the stable sort output is sorted by non-increasing key. -/
theorem pairwise_stableSortDescBy (key : Post → Nat) (l : List Post) :
    (stableSortDescBy key l).Pairwise (fun a b => key b ≤ key a) := by
  induction l with
  | nil => simp [stableSortDescBy]
  | cons x xs ih => exact pairwise_insertDescBy key x _ ih

/-- Helper: inserting into a sorted list places the new element in front of
exactly the equal-key elements, so the equal-key subsequence is preserved. -/
theorem filter_insertDescBy (key : Post → Nat) (x : Post) (k : Nat) (l : List Post)
    (hl : l.Pairwise (fun a b => key b ≤ key a)) :
    (insertDescBy key x l).filter (fun p => key p == k) =
      if key x == k then x :: l.filter (fun p => key p == k)
      else l.filter (fun p => key p == k) := by
  induction l with
  | nil =>
    cases hx : (key x == k) <;> simp [insertDescBy, hx]
  | cons y ys ih =>
    rw [List.pairwise_cons] at hl
    by_cases hlt : key x < key y
    · simp only [insertDescBy, if_pos hlt]
      rw [List.filter_cons, ih hl.2]
      cases hx : (key x == k) with
      | true =>
        have hxk : key x = k := by simpa using hx
        have hyk : (key y == k) = false := by
          have : key y ≠ k := by omega
          simpa using this
        simp [List.filter_cons, hx, hyk]
      | false =>
        simp [List.filter_cons, hx]
    · simp only [insertDescBy, if_neg hlt]
      cases hx : (key x == k) <;> simp [List.filter_cons, hx]

/-- Helper: the stable sort preserves the subsequence of each key value. -/
theorem filter_stableSortDescBy (key : Post → Nat) (k : Nat) (l : List Post) :
    (stableSortDescBy key l).filter (fun p => key p == k) =
      l.filter (fun p => key p == k) := by
  induction l with
  | nil => rfl
  | cons x xs ih =>
    show (insertDescBy key x (stableSortDescBy key xs)).filter _ = _
    rw [filter_insertDescBy key x k _ (pairwise_stableSortDescBy key xs), ih]
    cases hx : (key x == k) <;> simp [List.filter_cons, hx]

/-- C6: sorting by upvotes is a stable descending sort: the output is ordered
by non-increasing upvote count, posts with equal upvote counts keep their
relative input order (the equal-count subsequences coincide), and the output
holds exactly the input's posts. -/
theorem c6_upvote_sort_stable_descending (posts : List Post) :
    ((stableSortDescBy (sortKey .upvotes) posts).Pairwise
      fun a b => b.upvotes ≤ a.upvotes) ∧
    (∀ k : Nat,
      (stableSortDescBy (sortKey .upvotes) posts).filter (fun p => p.upvotes == k) =
        posts.filter (fun p => p.upvotes == k)) ∧
    (∀ p : Post, p ∈ stableSortDescBy (sortKey .upvotes) posts ↔ p ∈ posts) := by
  refine ⟨?_, ?_, ?_⟩
  · exact pairwise_stableSortDescBy (sortKey .upvotes) posts
  · intro k
    exact filter_stableSortDescBy (sortKey .upvotes) k posts
  · intro p
    exact mem_stableSortDescBy (sortKey .upvotes) p posts

/-- Helper: a string whose trimmed character list is non-empty is non-empty. -/
theorem jsTrim_ne_imp_length_pos (q : String) (hq : jsTrim q ≠ []) : 0 < q.length := by
  rcases Nat.eq_zero_or_pos q.length with h0 | hpos
  · exfalso
    apply hq
    have hdata : q.data = [] := List.length_eq_zero.mp h0
    show ((q.toList.dropWhile Char.isWhitespace).reverse.dropWhile Char.isWhitespace).reverse
      = []
    rw [show q.toList = ([] : List Char) from hdata]
    rfl
  · exact hpos

/-- C7: with a non-blank query and a selected flag, the derived view is the
flag filter applied as a post-filter on the remote search result, and its
members are exactly the posts of the table that both match the
case-insensitive substring search over title or content and carry exactly the
selected flag — the intersection of the two sets. -/
theorem c7_filter_composition (st : AppState) (q : String) (f : PostFlag) (mode : SortMode)
    (hq : jsTrim q ≠ []) :
    applyFilters st q (some f) mode =
      stableSortDescBy (sortKey mode)
        ((st.backendPosts.filter (matchesQuery q)).filter (fun p => p.flag == some f)) ∧
    (∀ p, p ∈ applyFilters st q (some f) mode ↔
      (p ∈ st.backendPosts ∧ matchesQuery q p = true ∧ p.flag = some f)) := by
  have hlen : 0 < q.length := jsTrim_ne_imp_length_pos q hq
  have hsearch : searchPosts st q = st.backendPosts.filter (matchesQuery q) := by
    simp [searchPosts, hq]
  have happ : applyFilters st q (some f) mode =
      stableSortDescBy (sortKey mode)
        ((st.backendPosts.filter (matchesQuery q)).filter (fun p => p.flag == some f)) := by
    simp [applyFilters, hlen, hsearch]
  refine ⟨happ, ?_⟩
  intro p
  rw [happ, mem_stableSortDescBy]
  simp only [List.mem_filter, beq_iff_eq]
  tauto

/-- C7 witness: in st0 the query "eco" matches both posts (title "Eco tips",
content "Big eco news"); restricting to flag News leaves exactly postB. -/
theorem c7_filter_composition_witness :
    jsTrim "eco" ≠ [] ∧
    (∀ p, p ∈ applyFilters st0 "eco" (some .News) .time ↔
      (p ∈ st0.backendPosts ∧ matchesQuery "eco" p = true ∧ p.flag = some .News)) := by
  exact ⟨by decide, (c7_filter_composition st0 "eco" .News .time (by decide)).2⟩

end Artemis
